import Mathlib

/-!
Verification of the recommendation engine of the Book-Rec repository
(`app.py`).  The catalog store, title matcher, genre detector and the
multi-branch `recommend_by_text` policy are embedded shallowly: Python
strings become `String`, Python lists become `List`, float similarity
scores become elements of an arbitrary linearly ordered commutative
ring (every IEEE float value and comparison embeds into `ℚ` and `ℝ`,
which are such rings), and the real normalisation of corpus rows
(which needs a square root) is embedded over `ℝ` in
`build_corpus_embeddings`.

The engine reads three process-wide values (`BOOKS`, `CORPUS_EMBS` and
the sentence-transformer model); the embedding passes them explicitly:
`books` for `BOOKS`, `corpus` for `CORPUS_EMBS`, and `E` for the map
sending a query string to the already ℓ2-normalised query embedding
`model.encode([q])[0] / (np.linalg.norm(..) + 1e-9)` (the positive
rescaling performed by that guard never changes any ranking).

`np.argsort` with its default `kind='quicksort'` returns some
permutation ordering the scores, but numpy does not promise a stable
order among tied scores.  The index-sort routine is therefore a
parameter `as` of the engine, constrained where needed by the contract
`IsArgsortDesc` (a permutation of all row indices, ordered by
descending score); `argsortDesc` is the concrete stable instance used
to evaluate the engine on concrete inputs.
-/

/-- Catalog item, as produced by `load_books_from_csv` /
`get_default_books` in `app.py`.  The hard-coded default books carry no
`cover` key, hence the `Option`. -/
structure Book where
  id : Nat
  title : String
  author : String
  description : String
  genres : List String
  cover : Option String
deriving DecidableEq, Inhabited, Repr

/-- Characters stripped by Python `str.strip()` (ASCII whitespace). -/
def pyIsSpace (c : Char) : Bool :=
  c = ' ' || c = '\t' || c = '\n' || c = '\r' || c = Char.ofNat 11 || c = Char.ofNat 12

/-- Python `str.strip()` on a character list. -/
def stripChars (l : List Char) : List Char :=
  ((l.dropWhile pyIsSpace).reverse.dropWhile pyIsSpace).reverse

/-- Python `str.strip()`. -/
def pyStrip (s : String) : String := ⟨stripChars s.data⟩

/-- ASCII lower-casing of one character, as `str.lower()` does on the
ASCII titles and genre tags of this catalog. -/
def lowerChar (c : Char) : Char :=
  if 'A' ≤ c && c ≤ 'Z' then Char.ofNat (c.toNat + 32) else c

/-- Python `str.lower()`. -/
def strLower (s : String) : String := ⟨s.data.map lowerChar⟩

/-- Check that `needle` occurs at the very front of `hay`. -/
def matchesAt : List Char → List Char → Bool
  | [], _ => true
  | _ :: _, [] => false
  | a :: as, b :: bs => a = b && matchesAt as bs

/-- Python `needle in hay` on strings: contiguous-substring test. -/
def containsSub (needle : List Char) : List Char → Bool
  | [] => matchesAt needle []
  | b :: bs => matchesAt needle (b :: bs) || containsSub needle bs

/-- Python slice `xs[:k]` for an `int` bound `k`: a non-negative `k`
keeps the first `k` items, a negative `k` drops the last `|k|`. -/
def pyTake (k : Int) (xs : List α) : List α :=
  if 0 ≤ k then xs.take k.toNat else xs.take (xs.length - (-k).toNat)

/-- One parsed CSV record, the `row` of `df.iterrows()` in
`load_books_from_csv` with its four relevant columns already rendered
as strings. -/
structure CsvRow where
  title : String
  author : String
  description : String
  genres : String
deriving DecidableEq, Inhabited, Repr

/-- Genre-cell parsing of `load_books_from_csv`: strip, treat empty or
`"nan"` as no genres, otherwise split on commas, strip each part and
drop empties. -/
def parseGenres (s : String) : List String :=
  let gs := pyStrip s
  if gs ≠ "" && strLower gs ≠ "nan" then
    ((gs.splitOn ",").map pyStrip).filter (fun g => g ≠ "")
  else []

/-- Body of the row loop of `load_books_from_csv`: ids are the 1-based
row position and covers are auto-linked by id. -/
def rowToBook (idx : Nat) (r : CsvRow) : Book :=
  { id := idx + 1
    title := pyStrip r.title
    author := pyStrip r.author
    description := pyStrip r.description
    genres := parseGenres r.genres
    cover := some ("/static/covers/" ++ toString (idx + 1) ++ ".jpg") }

/-- Fallback hard-coded book list `get_default_books` of `app.py`. -/
def get_default_books : List Book :=
  [ { id := 1, title := "Dune", author := "Frank Herbert",
      description := "Epic science fiction about politics, religion, and desert planet Arrakis.",
      genres := ["Science Fiction", "Adventure"], cover := none },
    { id := 2, title := "Neuromancer", author := "William Gibson",
      description := "Cyberpunk classic; a washed-up hacker is hired for one last job.",
      genres := ["Science Fiction", "Cyberpunk"], cover := none },
    { id := 3, title := "The Hobbit", author := "J.R.R. Tolkien",
      description := "A reluctant hobbit goes on an adventure with dwarves to reclaim treasure.",
      genres := ["Fantasy", "Adventure"], cover := none },
    { id := 4, title := "1984", author := "George Orwell",
      description := "Dystopian novel about surveillance, totalitarianism and truth control.",
      genres := ["Dystopia", "Political Fiction"], cover := none },
    { id := 5, title := "Pride and Prejudice", author := "Jane Austen",
      description := "A witty social commentary and romance centered on Elizabeth Bennet.",
      genres := ["Romance", "Classic"], cover := none },
    { id := 6, title := "The Martian", author := "Andy Weir",
      description := "A stranded astronaut uses engineering and humor to survive on Mars.",
      genres := ["Science Fiction", "Survival"], cover := none },
    { id := 7, title := "Foundation", author := "Isaac Asimov",
      description := "A mathematician predicts the fall of an empire and starts the Foundation project.",
      genres := ["Science Fiction", "Epic"], cover := none },
    { id := 8, title := "The Name of the Wind", author := "Patrick Rothfuss",
      description := "A gifted young man grows into a legendary figure; lyrical fantasy.",
      genres := ["Fantasy", "Epic"], cover := none },
    { id := 9, title := "Sapiens", author := "Yuval Noah Harari",
      description := "A brief history of humankind exploring cognitive, agricultural, and scientific revolutions.",
      genres := ["Nonfiction", "History"], cover := none },
    { id := 10, title := "The Left Hand of Darkness", author := "Ursula K. Le Guin",
      description := "An envoy visits a planet with ambisexual inhabitants; explores society and politics.",
      genres := ["Science Fiction", "Social Commentary"], cover := none },
    { id := 11, title := "Frankenstein", author := "Mary Shelley",
      description := "A scientist creates life and faces the consequences; early science fiction and gothic novel.",
      genres := ["Classic", "Gothic"], cover := none },
    { id := 12, title := "The Catcher in the Rye", author := "J.D. Salinger",
      description := "A coming-of-age story about teenage alienation and angst.",
      genres := ["Classic", "Coming-of-age"], cover := none },
    { id := 13, title := "The Great Gatsby", author := "F. Scott Fitzgerald",
      description := "A critique of the American Dream set in the Jazz Age.",
      genres := ["Classic", "Romance"], cover := none },
    { id := 14, title := "To Kill a Mockingbird", author := "Harper Lee",
      description := "A story of racial injustice and childhood innocence in the American South.",
      genres := ["Classic", "Social Commentary"], cover := none },
    { id := 15, title := "The Hunger Games", author := "Suzanne Collins",
      description := "A dystopian tale of survival and rebellion in a totalitarian society.",
      genres := ["Dystopia", "Adventure", "Young Adult"], cover := none },
    { id := 16, title := "Harry Potter and the Sorcerer's Stone", author := "J.K. Rowling",
      description := "A young wizard discovers his magical heritage and attends Hogwarts.",
      genres := ["Fantasy", "Adventure", "Young Adult"], cover := none },
    { id := 17, title := "The Girl with the Dragon Tattoo", author := "Stieg Larsson",
      description := "A journalist and hacker investigate a wealthy family's dark secrets.",
      genres := ["Mystery", "Thriller"], cover := none },
    { id := 18, title := "Gone Girl", author := "Gillian Flynn",
      description := "A psychological thriller about a marriage gone wrong.",
      genres := ["Thriller", "Mystery", "Psychological"], cover := none },
    { id := 19, title := "The Fault in Our Stars", author := "John Green",
      description := "A love story between two teenagers with cancer.",
      genres := ["Romance", "Young Adult", "Contemporary Fiction"], cover := none },
    { id := 20, title := "Educated", author := "Tara Westover",
      description := "A memoir about education, family, and the struggle for self-invention.",
      genres := ["Nonfiction", "Memoir", "Biography"], cover := none },
    { id := 21, title := "The Silent Patient", author := "Alex Michaelides",
      description := "A psychotherapist's obsession with treating a woman who refuses to speak.",
      genres := ["Thriller", "Mystery", "Psychological"], cover := none },
    { id := 22, title := "Where the Crawdads Sing", author := "Delia Owens",
      description := "A coming-of-age story set in the marshlands of North Carolina.",
      genres := ["Mystery", "Coming-of-age", "Romance"], cover := none },
    { id := 23, title := "The Seven Husbands of Evelyn Hugo", author := "Taylor Jenkins Reid",
      description := "A reclusive Hollywood icon tells her life story to an unknown journalist.",
      genres := ["Romance", "Historical Fiction", "LGBTQ+"], cover := none },
    { id := 24, title := "Atomic Habits", author := "James Clear",
      description := "A guide to building good habits and breaking bad ones.",
      genres := ["Nonfiction", "Self-Help", "Psychology"], cover := none },
    { id := 25, title := "The Midnight Library", author := "Matt Haig",
      description := "A woman explores alternate versions of her life in a magical library.",
      genres := ["Fantasy", "Contemporary Fiction", "Philosophy"], cover := none } ]

/-- Loader `load_books_from_csv`: the `try` body is represented by an
`Except` source, `ok rows` standing for a successful `pd.read_csv`
yielding `rows` data records, `error` for `FileNotFoundError` or any
other exception, which the two `except` arms both answer with the
hard-coded default list. -/
def load_books_from_csv (src : Except String (List CsvRow)) : List Book :=
  match src with
  | Except.ok rows => (List.enumFrom 0 rows).map (fun ir => rowToBook ir.1 ir.2)
  | Except.error _ => get_default_books

/-- One step of building a Python `dict` as an insertion-ordered
association list: an existing key keeps its position but its value is
overwritten, a new key is appended. -/
def dictInsert (d : List (String × Nat)) (key : String) (v : Nat) : List (String × Nat) :=
  if (d.map Prod.fst).contains key then
    d.map (fun p => if p.1 = key then (p.1, v) else p)
  else d ++ [(key, v)]

/-- The module-level lookup `_TITLE_LOOKUP = {b['title'].lower(): i for
i, b in enumerate(BOOKS)}` of `app.py`. -/
def titleLookup (books : List Book) : List (String × Nat) :=
  (List.enumFrom 0 books).foldl (fun d ib => dictInsert d (strLower ib.2.title) ib.1) []

/-- Title matcher `_find_title_mentioned`: scan the lookup in its
iteration order for the first stored lowercased title occurring inside
the lowercased query. -/
def find_title_mentioned (books : List Book) (query : String) : Option Nat :=
  let q := strLower query
  ((titleLookup books).find? (fun p => containsSub p.1.data q.data)).map Prod.snd

/-- The 36-entry `genre_mapping` dictionary inside
`_detect_genres_from_query_improved`, in source order. -/
def genre_mapping : List (String × String) :=
  [ ("science fiction", "science fiction"),
    ("sci-fi", "science fiction"),
    ("scifi", "science fiction"),
    ("sf", "science fiction"),
    ("fantasy", "fantasy"),
    ("romance", "romance"),
    ("romantic", "romance"),
    ("dystopia", "dystopia"),
    ("dystopian", "dystopia"),
    ("nonfiction", "nonfiction"),
    ("non-fiction", "nonfiction"),
    ("non fiction", "nonfiction"),
    ("classic", "classic"),
    ("classics", "classic"),
    ("adventure", "adventure"),
    ("cyberpunk", "cyberpunk"),
    ("gothic", "gothic"),
    ("history", "history"),
    ("historical", "history"),
    ("epic", "epic"),
    ("survival", "survival"),
    ("political", "political fiction"),
    ("politics", "political fiction"),
    ("coming-of-age", "coming-of-age"),
    ("coming of age", "coming-of-age"),
    ("social commentary", "social commentary"),
    ("thriller", "thriller"),
    ("mystery", "mystery"),
    ("psychological", "psychological"),
    ("young adult", "young adult"),
    ("ya", "young adult"),
    ("contemporary", "contemporary fiction"),
    ("memoir", "memoir"),
    ("biography", "biography"),
    ("self-help", "self-help"),
    ("philosophy", "philosophy") ]

/-- Punctuation set of `word.strip('.,!?;:"()[]{}')` in the
word-by-word matching step. -/
def pyIsPunct (c : Char) : Bool :=
  c = '.' || c = ',' || c = '!' || c = '?' || c = ';' || c = ':' || c = '\"' ||
  c = '(' || c = ')' || c = '[' || c = ']' || c = Char.ofNat 123 || c = Char.ofNat 125

/-- Python `word.strip(punct)` on a character list. -/
def stripPunct (l : List Char) : List Char :=
  ((l.dropWhile pyIsPunct).reverse.dropWhile pyIsPunct).reverse

/-- Fuelled worker for `pySplitWs`; the fuel only enforces structural
termination and `pySplitWs` always supplies enough of it, since every
step shortens the list by at least one character. -/
def pySplitWsAux : Nat → List Char → List (List Char)
  | 0, _ => []
  | _, [] => []
  | fuel + 1, c :: cs =>
    if pyIsSpace c then pySplitWsAux fuel cs
    else
      (c :: cs).takeWhile (fun d => !pyIsSpace d) ::
        pySplitWsAux fuel (cs.dropWhile (fun d => !pyIsSpace d))

/-- Python `q.split()`: split on whitespace runs, dropping empty
pieces. -/
def pySplitWs (l : List Char) : List (List Char) := pySplitWsAux l.length l

/-- Append each item not already present; a set accumulated by
`detected.add(..)` is used downstream only through membership and
emptiness, which never depend on Python's set iteration order, so the
model fixes the first-insertion order. -/
def dedupKeepFirst (l : List String) : List String :=
  l.foldl (fun acc x => if acc.contains x then acc else acc ++ [x]) []

/-- Genre detector `_detect_genres_from_query_improved`: exact
whole-query match first, then substring scan over all surface forms,
then word-by-word matching with punctuation stripped. -/
def detect_genres_from_query (query : String) : List String :=
  let q := pyStrip (strLower query)
  match (genre_mapping.find? (fun p => p.1 = q)).map Prod.snd with
  | some g => [g]
  | none =>
    let sub := dedupKeepFirst
      ((genre_mapping.filter (fun p => containsSub p.1.data q.data)).map Prod.snd)
    if sub ≠ [] then sub
    else
      dedupKeepFirst ((pySplitWs q.data).filterMap (fun w =>
        (genre_mapping.find? (fun p => p.1.data = stripPunct w)).map Prod.snd))

/- Scores live in an arbitrary linearly ordered commutative ring
`α`.  The program computes with IEEE floats, whose exact values and
comparisons embed into `ℚ` and `ℝ`; every theorem below holds for any
such `α`, and concrete evaluations instantiate `α := ℤ` (a valid
special case: nothing stops an embedder producing integer-valued unit
rows). -/
section Engine

variable {α : Type} [LinearOrderedCommRing α]

/-- Dot product; `CORPUS_EMBS @ q_emb` applies it row-wise. -/
def dot (a b : List α) : α := (List.zipWith (· * ·) a b).sum

/-- Similarity vector `sims = CORPUS_EMBS @ q_emb` for a query vector
`v`. -/
def querySims (corpus : List (List α)) (v : List α) : List α :=
  corpus.map (fun row => dot row v)

/-- Similarity vector of the title branch: the corpus row of the
mentioned book is the query vector and its own entry is forced to the
sentinel `-1.0` (`sims[title_idx] = -1.0`). -/
def titleSims (corpus : List (List α)) (t : Nat) : List α :=
  (querySims corpus (corpus.getD t [])).set t (-1)

/-- Contract of `np.argsort(-sims)`: some permutation of all row
indices along which the scores descend.  numpy's default
`kind='quicksort'` promises nothing further; in particular it does not
promise stability between equal scores. -/
def IsArgsortDesc (xs : List α) (p : List Nat) : Prop :=
  p.Perm (List.range xs.length) ∧
  p.Pairwise (fun i j => xs.getD j 0 ≤ xs.getD i 0)

instance (xs : List α) (p : List Nat) : Decidable (IsArgsortDesc xs p) := by
  unfold IsArgsortDesc; exact instDecidableAnd

/-- Stable determinization of `np.argsort(-sims)`, used to run the
engine on concrete inputs: indices sorted by descending score, equal
scores kept in index order (Mathlib's `insertionSort` is stable). -/
def argsortDesc (xs : List α) : List Nat :=
  List.insertionSort (fun i j => xs.getD j 0 ≤ xs.getD i 0) (List.range xs.length)

/-- Shared tail of the two argsort branches:
`[BOOKS[int(i)] for i in np.argsort(-sims)[:k]]`. -/
def rankBy (as : List α → List Nat) (books : List Book) (sims : List α) (k : Int) :
    List Book :=
  (pyTake k (as sims)).map (fun i => books.getD i default)

/-- Index list `np.argsort(-sims)[:k]` of the title branch. -/
def topIdxTitle (as : List α → List Nat) (corpus : List (List α)) (t : Nat) (k : Int) :
    List Nat :=
  pyTake k (as (titleSims corpus t))

/-- Index list `np.argsort(-sims)[:k]` of the pure embedding branch. -/
def topIdxQuery (as : List α → List Nat) (corpus : List (List α)) (v : List α) (k : Int) :
    List Nat :=
  pyTake k (as (querySims corpus v))

/-- Membership test of the genre branch: does the book carry at least
one genre tag equal, after lowercasing, to a detected canonical tag? -/
def bookMatchesGenres (detected : List String) (b : Book) : Bool :=
  detected.any (fun dg => (b.genres.map strLower).contains dg)

/-- The `genre_matches` list of `(i, book)` pairs collected by the
genre branch, in catalog order. -/
def genreMatchesOf (books : List Book) (detected : List String) : List (Nat × Book) :=
  (List.enumFrom 0 books).filter (fun ib => bookMatchesGenres detected ib.2)

/-- Python string comparison `a <= b`: lexicographic on code points,
expressed on the underlying character lists (equivalent to Lean's
`String` order, see `pyStrLe_iff_le`, but kernel-computable). -/
def pyStrLe (a b : String) : Prop := ¬ b.data < a.data

instance : DecidableRel pyStrLe := fun a b =>
  instDecidableNot (p := b.data < a.data)

/-- Python's stable `genre_matches.sort(key=lambda x: x[1]['title'])`. -/
def sortByTitle (ms : List (Nat × Book)) : List (Nat × Book) :=
  List.insertionSort (fun a b => pyStrLe a.2.title b.2.title) ms

/-- Python's stable `available_sims.sort(key=lambda x: -x[1])`:
descending by score, ties kept in the original (index) order. -/
def sortBySimDesc (ps : List (Nat × α)) : List (Nat × α) :=
  List.insertionSort (fun a b => b.2 ≤ a.2) ps

/-- The `available_sims` comprehension of the hybrid branch: every row
index not already used by a genre match, paired with its score. -/
def availablePairs (books : List Book) (corpus : List (List α)) (v : List α)
    (used : List Nat) : List (Nat × α) :=
  ((List.range books.length).filter (fun i => !used.contains i)).map
    (fun i => (i, (querySims corpus v).getD i 0))

/-- Similarity fill of the hybrid branch: the top `remaining` available
rows by descending score, mapped back to books. -/
def fillBooks (books : List Book) (corpus : List (List α)) (v : List α)
    (used : List Nat) (remaining : Int) : List Book :=
  (pyTake remaining (sortBySimDesc (availablePairs books corpus v used))).map
    (fun p => books.getD p.1 default)

/-- The decision core `recommend_by_text(query_text, k)` of `app.py`.
`as` stands for `np.argsort(-·)` (see `IsArgsortDesc`), `books` for the
module-level `BOOKS`, `corpus` for `CORPUS_EMBS`, and `E` for the
normalised query embedder (see the file header).  Branches in source
order: empty query, mentioned title, enough genre matches, hybrid
genre-plus-similarity fill, pure embedding similarity. -/
def recommend_by_text (as : List α → List Nat) (books : List Book)
    (corpus : List (List α)) (E : String → List α) (query_text : String) (k : Int) :
    List Book :=
  let q := pyStrip query_text
  if q = "" then []
  else
    match find_title_mentioned books q with
    | some t => rankBy as books (titleSims corpus t) k
    | none =>
      let detected := detect_genres_from_query q
      let gm := genreMatchesOf books detected
      if detected ≠ [] ∧ k ≤ (gm.length : Int) then
        (pyTake k (sortByTitle gm)).map Prod.snd
      else if detected ≠ [] ∧ gm ≠ [] then
        let genreBooks := gm.map Prod.snd
        let remaining : Int := k - (gm.length : Int)
        let out :=
          if 0 < remaining then
            genreBooks ++ fillBooks books corpus (E q) (gm.map Prod.fst) remaining
          else genreBooks
        pyTake k out
      else
        rankBy as books (querySims corpus (E q)) k

end Engine

/-- Order of returned items relative to a score vector: along the
index list, scores never increase (the "sorted descending by
similarity" shape of the ranked branches). -/
def RankedDesc {α : Type} [LinearOrderedCommRing α] (sims : List α) (idxs : List Nat) : Prop :=
  idxs.Pairwise (fun i j => sims.getD j 0 ≤ sims.getD i 0)

/-- Modelled from the spec (§4.4 Title Matcher), as the comparison
point of the refinement claim C7: "Returns the position of the first
catalog title (in catalog iteration order) that occurs as a substring
of the lowercased query; none if no title matches."  Worker carrying
the position counter. -/
def findTitleSpecAux (q : List Char) : Nat → List Book → Option Nat
  | _, [] => none
  | i, b :: bs =>
    if containsSub (strLower b.title).data q then some i
    else findTitleSpecAux q (i + 1) bs

/-- Modelled from the spec (§4.4): first catalog position whose
lowercased title occurs inside the lowercased query. -/
def findTitleSpec (books : List Book) (query : String) : Option Nat :=
  findTitleSpecAux (strLower query).data 0 books

/-- Text embedded for one catalog item:
`b["title"] + " " + b["author"] + " " + b["description"]`. -/
def embText (b : Book) : String := b.title ++ " " ++ b.author ++ " " ++ b.description

/-- Row norm `np.linalg.norm(embs, axis=1)`, over exact reals. -/
noncomputable def l2norm (v : List ℝ) : ℝ := Real.sqrt ((v.map (fun x => x ^ 2)).sum)

/-- Per-row normalisation of `build_corpus_embeddings`: divide by the
row norm after `norms[norms == 0] = 1.0`. -/
noncomputable def normalizeRow (v : List ℝ) : List ℝ :=
  v.map (fun x => x / (if l2norm v = 0 then 1 else l2norm v))

/-- Corpus index builder `build_corpus_embeddings(books)` of `app.py`:
embed each item's concatenated text and normalise each row. -/
noncomputable def build_corpus_embeddings (E : String → List ℝ) (books : List Book) :
    List (List ℝ) :=
  books.map (fun b => normalizeRow (E (embText b)))

/-- Three-book catalog with pairwise distinct titles, used to evaluate
the engine's title branch on concrete inputs. -/
def cbooksA : List Book :=
  [ { id := 1, title := "aaa", author := "x", description := "d", genres := [], cover := none },
    { id := 2, title := "bbb", author := "y", description := "d", genres := [], cover := none },
    { id := 3, title := "ccc", author := "z", description := "d", genres := [], cover := none } ]

/-- Concrete corpus for `cbooksA`: three identical unit rows. -/
def ccorpusA : List (List Int) := [[1], [1], [1]]

/-- Concrete normalised query embedder for `cbooksA`. -/
def cEA : String → List Int := fun _ => [1]

/-- Three-book catalog with one romance-tagged and one
`romance`-tagged item, used to evaluate the genre and hybrid
branches. -/
def cbooksB : List Book :=
  [ { id := 1, title := "Bb", author := "x", description := "d",
      genres := ["Romance"], cover := none },
    { id := 2, title := "Aa", author := "y", description := "d",
      genres := ["romance"], cover := none },
    { id := 3, title := "Cc", author := "z", description := "d",
      genres := [], cover := none } ]

/-- Concrete corpus for `cbooksB`. -/
def ccorpusB : List (List Int) := [[1], [0], [2]]

/-- Concrete normalised query embedder for `cbooksB`. -/
def cEB : String → List Int := fun _ => [1]

/-- Two-book catalog with equal corpus rows, exhibiting a score tie. -/
def cbooksD : List Book :=
  [ { id := 1, title := "qq", author := "x", description := "d", genres := [], cover := none },
    { id := 2, title := "ww", author := "y", description := "d", genres := [], cover := none } ]

/-- Concrete corpus for `cbooksD`: two identical unit rows, so every
query scores both rows equally. -/
def ccorpusD : List (List Int) := [[1], [1]]

/-- Concrete normalised query embedder for `cbooksD`. -/
def cED : String → List Int := fun _ => [1]

/-- An index-sort routine meeting the `np.argsort` contract
(`IsArgsortDesc`) at every input, which on the tied score vector
`[1, 1]` returns the two indices in the order `[1, 0]`: a legal
quicksort outcome that is not stable. -/
def unstableArgsort : List Int → List Nat :=
  fun xs => if xs = [1, 1] then [1, 0] else argsortDesc xs

/-- Two-book catalog whose titles differ only by letter case, so both
lowercase to the same lookup key. -/
def cbooksT : List Book :=
  [ { id := 1, title := "Dune", author := "x", description := "d", genres := [], cover := none },
    { id := 2, title := "dUNE", author := "y", description := "d", genres := [], cover := none } ]

/-- Embedder used for the corpus-index witness. -/
noncomputable def cE8 : String → List ℝ := fun _ => [3, 4]

/-- One-book catalog for the corpus-index witness. -/
def cbooks8 : List Book :=
  [ { id := 1, title := "t", author := "a", description := "d", genres := [], cover := none } ]

/-- A second concrete embedder that agrees with `cEA` on the query
`"zzz"` while differing elsewhere, for the determinism witness. -/
def cEA2 : String → List Int := fun s => if s = "" then [7] else [1]

/-- Lean's `String` order coincides with the code-point order `pyStrLe`
that Python's title sort uses. -/
theorem pyStrLe_iff_le (a b : String) : pyStrLe a b ↔ a ≤ b := by
  unfold pyStrLe
  rw [← not_lt (α := String)]
  exact not_congr (Iff.symm String.lt_iff_toList_lt)

/-- A zero slice bound yields the empty list. -/
theorem pyTake_zero {β : Type} (xs : List β) : pyTake 0 xs = [] := by
  simp [pyTake]

/-- Python slices select a sublist. -/
theorem pyTake_sublist {β : Type} (k : Int) (xs : List β) : (pyTake k xs).Sublist xs := by
  unfold pyTake
  split
  · exact List.take_sublist ..
  · exact List.take_sublist ..

/-- Length of a positively bounded slice. -/
theorem length_pyTake_of_pos {β : Type} {k : Int} (hk : 0 < k) (xs : List β) :
    (pyTake k xs).length = min k.toNat xs.length := by
  unfold pyTake
  rw [if_pos (le_of_lt hk)]
  exact List.length_take ..

/-- The stable determinization `argsortDesc` satisfies the
`np.argsort` contract at every input. -/
theorem argsortDesc_valid {α : Type} [LinearOrderedCommRing α] (xs : List α) :
    IsArgsortDesc xs (argsortDesc xs) := by
  constructor
  · exact List.perm_insertionSort _ (List.range xs.length)
  · haveI : IsTotal Nat (fun i j => xs.getD j 0 ≤ xs.getD i 0) := ⟨fun i j => le_total _ _⟩
    haveI : IsTrans Nat (fun i j => xs.getD j 0 ≤ xs.getD i 0) :=
      ⟨fun _ _ _ h1 h2 => le_trans h2 h1⟩
    exact List.sorted_insertionSort _ (List.range xs.length)

/-- An empty detected genre set matches no catalog item. -/
theorem genreMatchesOf_nil (books : List Book) : genreMatchesOf books [] = [] := by
  simp [genreMatchesOf, bookMatchesGenres]

/-- Unfolding of the empty-query guard. -/
theorem recommend_of_strip_empty {α : Type} [LinearOrderedCommRing α]
    (as : List α → List Nat) (books : List Book) (corpus : List (List α))
    (E : String → List α) (q : String) (k : Int) (hq : pyStrip q = "") :
    recommend_by_text as books corpus E q k = [] := by
  simp only [recommend_by_text, hq]
  rfl

/-- Unfolding of the title branch. -/
theorem recommend_title_branch {α : Type} [LinearOrderedCommRing α]
    (as : List α → List Nat) (books : List Book) (corpus : List (List α))
    (E : String → List α) (q : String) (k : Int) (t : Nat)
    (hq : pyStrip q ≠ "") (hfind : find_title_mentioned books (pyStrip q) = some t) :
    recommend_by_text as books corpus E q k = rankBy as books (titleSims corpus t) k := by
  simp only [recommend_by_text, hfind, if_neg hq]

/-- Unfolding of the pure embedding branch.  It is entered both when
no genre is detected and, by fall-through, when genres were detected
but no catalog item matches them (`genre_matches` empty) and `k` is
positive (for `k ≤ 0` the empty match list already satisfies
`len(genre_matches) >= k` and the alphabetical arm answers). -/
theorem recommend_pure_branch {α : Type} [LinearOrderedCommRing α]
    (as : List α → List Nat) (books : List Book) (corpus : List (List α))
    (E : String → List α) (q : String) (k : Int)
    (hq : pyStrip q ≠ "") (hfind : find_title_mentioned books (pyStrip q) = none)
    (hgm : genreMatchesOf books (detect_genres_from_query (pyStrip q)) = [])
    (hor : detect_genres_from_query (pyStrip q) = [] ∨ 0 < k) :
    recommend_by_text as books corpus E q k =
      rankBy as books (querySims corpus (E (pyStrip q))) k := by
  simp only [recommend_by_text, hfind, if_neg hq]
  rw [if_neg ?_, if_neg ?_]
  · intro h
    exact h.2 hgm
  · intro h
    rcases hor with hdet | hk
    · exact h.1 hdet
    · rw [hgm] at h
      simp only [List.length_nil, Nat.cast_zero] at h
      omega

/-- Unfolding of the alphabetical genre branch (enough matches). -/
theorem recommend_genre_branch {α : Type} [LinearOrderedCommRing α]
    (as : List α → List Nat) (books : List Book) (corpus : List (List α))
    (E : String → List α) (q : String) (k : Int)
    (hq : pyStrip q ≠ "") (hfind : find_title_mentioned books (pyStrip q) = none)
    (hdet : detect_genres_from_query (pyStrip q) ≠ [])
    (hk : k ≤ ((genreMatchesOf books (detect_genres_from_query (pyStrip q))).length : Int)) :
    recommend_by_text as books corpus E q k =
      (pyTake k (sortByTitle (genreMatchesOf books (detect_genres_from_query (pyStrip q))))).map
        Prod.snd := by
  simp only [recommend_by_text, hfind, if_neg hq]
  rw [if_pos ⟨hdet, hk⟩]

/-- Unfolding of the hybrid genre-plus-similarity branch. -/
theorem recommend_hybrid_branch {α : Type} [LinearOrderedCommRing α]
    (as : List α → List Nat) (books : List Book) (corpus : List (List α))
    (E : String → List α) (q : String) (k : Int)
    (hq : pyStrip q ≠ "") (hfind : find_title_mentioned books (pyStrip q) = none)
    (hdet : detect_genres_from_query (pyStrip q) ≠ [])
    (hm : genreMatchesOf books (detect_genres_from_query (pyStrip q)) ≠ [])
    (hk : ((genreMatchesOf books (detect_genres_from_query (pyStrip q))).length : Int) < k) :
    recommend_by_text as books corpus E q k =
      pyTake k
        ((genreMatchesOf books (detect_genres_from_query (pyStrip q))).map Prod.snd ++
          fillBooks books corpus (E (pyStrip q))
            ((genreMatchesOf books (detect_genres_from_query (pyStrip q))).map Prod.fst)
            (k - ((genreMatchesOf books (detect_genres_from_query (pyStrip q))).length : Int))) := by
  simp only [recommend_by_text, hfind, if_neg hq]
  rw [if_neg (by intro h; exact absurd h.2 (not_le.mpr hk)), if_pos ⟨hdet, hm⟩,
    if_pos (by omega : (0 : Int) < k - _)]

/-- C5: for every query that is empty or consists only of whitespace
characters, and for every `k`, `recommend_by_text` returns the empty
sequence (no error path exists: the stripped query is empty, so the
guard returns `[]` immediately). -/
theorem C5_whitespace_query_empty_result {α : Type} [LinearOrderedCommRing α]
    (as : List α → List Nat) (books : List Book) (corpus : List (List α))
    (E : String → List α) (q : String) (k : Int)
    (hq : q.data.all pyIsSpace = true) :
    recommend_by_text as books corpus E q k = [] := by
  have hstrip : pyStrip q = "" := by
    have hall : ∀ c ∈ q.data, pyIsSpace c = true := List.all_eq_true.mp hq
    have h1 : q.data.dropWhile pyIsSpace = [] := List.dropWhile_eq_nil_iff.mpr hall
    show String.mk (stripChars q.data) = ""
    rw [stripChars, h1]
    rfl
  simp only [recommend_by_text, hstrip]
  rfl

/-- Witness for C5: the all-whitespace query `"   "` on the default
catalog yields `[]` even for a negative `k`. -/
theorem C5_witness :
    ("   " : String).data.all pyIsSpace = true ∧
    recommend_by_text argsortDesc get_default_books ([] : List (List Int))
      (fun _ => []) "   " (-7) = [] :=
  ⟨by decide,
   C5_whitespace_query_empty_result argsortDesc get_default_books [] (fun _ => [])
     "   " (-7) (by decide)⟩

/-- C6 counterexample: the claim "for every `k ≤ 0` the result is
empty" fails for negative `k`: Python's `[:k]` slice with `k = -1`
keeps all ranked items but the last one, so a non-empty query with a
mentioned title returns two of the three catalog items. -/
theorem C6_counterexample :
    pyStrip "aaa" ≠ "" ∧ (-1 : Int) ≤ 0 ∧
    recommend_by_text argsortDesc cbooksA ccorpusA cEA "aaa" (-1) =
      [cbooksA.getD 1 default, cbooksA.getD 2 default] := by decide

/-- C6 amended: with `k = 0` (the only non-positive `k` for which the
claim holds) every branch returns the empty sequence, for every query.
For `k < 0` the slice `[:k]` instead drops `|k|` items from the end of
the ranking, as `C6_counterexample` shows. -/
theorem C6_amended_zero_k_empty_result {α : Type} [LinearOrderedCommRing α]
    (as : List α → List Nat) (books : List Book) (corpus : List (List α))
    (E : String → List α) (q : String) :
    recommend_by_text as books corpus E q 0 = [] := by
  by_cases hq : pyStrip q = ""
  · simp only [recommend_by_text, hq]
    rfl
  · cases hfind : find_title_mentioned books (pyStrip q) with
    | some t =>
      rw [recommend_title_branch as books corpus E q 0 t hq hfind]
      simp [rankBy, pyTake_zero]
    | none =>
      by_cases hdet : detect_genres_from_query (pyStrip q) = []
      · rw [recommend_pure_branch as books corpus E q 0 hq hfind
          (by rw [hdet]; exact genreMatchesOf_nil books) (Or.inl hdet)]
        simp [rankBy, pyTake_zero]
      · rw [recommend_genre_branch as books corpus E q 0 hq hfind hdet
          (by positivity)]
        simp [pyTake_zero]

/-- C9: determinism of `recommend_by_text`.  Two runs with the same
catalog, corpus, argsort routine, query and `k`, whose embedders agree
on the one string the engine embeds (the deterministic-embedder
premise), return identical ordered results; every other step of the
engine is a pure function of these inputs. -/
theorem C9_two_run_determinism {α : Type} [LinearOrderedCommRing α]
    (as : List α → List Nat) (books : List Book) (corpus : List (List α))
    (E1 E2 : String → List α) (q : String) (k : Int)
    (hE : E1 (pyStrip q) = E2 (pyStrip q)) :
    recommend_by_text as books corpus E1 q k =
      recommend_by_text as books corpus E2 q k := by
  simp only [recommend_by_text, hE]

/-- Witness for C9: two embedders that agree on the query `"zzz"`
yield the same result list there. -/
theorem C9_witness :
    cEA (pyStrip "zzz") = cEA2 (pyStrip "zzz") ∧
    recommend_by_text argsortDesc cbooksA ccorpusA cEA "zzz" 2 =
      recommend_by_text argsortDesc cbooksA ccorpusA cEA2 "zzz" 2 :=
  ⟨by decide,
   C9_two_run_determinism argsortDesc cbooksA ccorpusA cEA cEA2 "zzz" 2 (by decide)⟩

/-- C10: a source that is found and parses to zero data rows loads as
the empty catalog, which differs from the built-in fallback; the
fallback (25 books) is substituted exactly when reading the source
raises, i.e. on the `error` side of the `try`. -/
theorem C10_empty_csv_not_fallback :
    load_books_from_csv (Except.ok []) = [] ∧
    load_books_from_csv (Except.ok []) ≠ get_default_books ∧
    (∀ e, load_books_from_csv (Except.error e) = get_default_books) ∧
    get_default_books.length = 25 := by
  refine ⟨rfl, ?_, fun _ => rfl, rfl⟩
  intro h
  have h0 : ([] : List Book) = get_default_books := h
  have hlen := congrArg List.length h0
  simp [get_default_books] at hlen

/-- C1 counterexample: the claim "the mentioned book never recommends
itself, for every positive `k`" fails when `k` reaches the catalog
size: the code only forces the self-similarity to the sentinel `-1.0`,
so the mentioned item is still the last element of the full ranking
and the slice `[:k]` with `k = 3` on a 3-book catalog returns it. -/
theorem C1_counterexample :
    find_title_mentioned cbooksA (pyStrip "aaa") = some 0 ∧ (0 : Int) < 3 ∧
    IsArgsortDesc (titleSims ccorpusA 0) (argsortDesc (titleSims ccorpusA 0)) ∧
    cbooksA.getD 0 default ∈
      recommend_by_text argsortDesc cbooksA ccorpusA cEA "aaa" 3 := by decide

/-- C4 counterexample: the claim's stable tie-breaking fails.  On the
query `"zz"` (no title, no genre) both corpus rows score `1`, the
routine `unstableArgsort` meets the `np.argsort` contract on that
score vector, yet the engine returns the two equal-scoring items in
reversed catalog order — numpy's default quicksort does not promise
stability, so catalog order among ties is not guaranteed. -/
theorem C4_counterexample :
    find_title_mentioned cbooksD (pyStrip "zz") = none ∧
    detect_genres_from_query (pyStrip "zz") = [] ∧
    querySims ccorpusD (cED (pyStrip "zz")) = [1, 1] ∧
    IsArgsortDesc (querySims ccorpusD (cED (pyStrip "zz")))
      (unstableArgsort (querySims ccorpusD (cED (pyStrip "zz")))) ∧
    recommend_by_text unstableArgsort cbooksD ccorpusD cED "zz" 2 =
      [cbooksD.getD 1 default, cbooksD.getD 0 default] ∧
    cbooksD.getD 1 default ≠ cbooksD.getD 0 default := by decide

/-- C7 counterexample: with two catalog titles that lowercase to the
same key, the dict comprehension keeps the first key position but
overwrites its value with the later index, so the matcher reports the
last duplicate's position (1) where the claim demands the first
matching position (0). -/
theorem C7_counterexample :
    findTitleSpec cbooksT "dune" = some 0 ∧
    find_title_mentioned cbooksT "dune" = some 1 ∧
    find_title_mentioned cbooksT "dune" ≠ findTitleSpec cbooksT "dune" := by decide

/-- The Bool-valued genre test of the engine unfolds to: some genre
tag of the book lowercases into the detected set. -/
theorem bookMatchesGenres_iff (det : List String) (b : Book) :
    bookMatchesGenres det b = true ↔ ∃ g ∈ b.genres, strLower g ∈ det := by
  unfold bookMatchesGenres
  rw [List.any_eq_true]
  constructor
  · rintro ⟨dg, hdg, hc⟩
    obtain ⟨g, hg, hgl⟩ := List.mem_map.mp (List.elem_iff.mp hc)
    exact ⟨g, hg, hgl ▸ hdg⟩
  · rintro ⟨g, hg, hgl⟩
    exact ⟨strLower g, hgl, List.elem_iff.mpr (List.mem_map.mpr ⟨g, hg, rfl⟩)⟩

/-- An empty stripped query detects no genres (needed to rule the
empty-query guard out of the genre branches). -/
theorem detect_empty_is_nil : detect_genres_from_query "" = [] := by decide

/-- C2: when no title is mentioned, the detected genre set is
non-empty and at least `k` catalog items match it (`k` positive), the
engine returns exactly `k` items, each carrying a genre tag that
lowercases into the detected set, listed in ascending alphabetical
title order. -/
theorem C2_genre_branch_alphabetical {α : Type} [LinearOrderedCommRing α]
    (as : List α → List Nat) (books : List Book) (corpus : List (List α))
    (E : String → List α) (q : String) (k : Int)
    (hfind : find_title_mentioned books (pyStrip q) = none)
    (hdet : detect_genres_from_query (pyStrip q) ≠ [])
    (hk : 0 < k)
    (hmk : k ≤ ((genreMatchesOf books (detect_genres_from_query (pyStrip q))).length : Int)) :
    ((recommend_by_text as books corpus E q k).length : Int) = k ∧
    (∀ b ∈ recommend_by_text as books corpus E q k,
      ∃ g ∈ b.genres, strLower g ∈ detect_genres_from_query (pyStrip q)) ∧
    (recommend_by_text as books corpus E q k).Pairwise (fun b c => b.title ≤ c.title) := by
  have hq : pyStrip q ≠ "" := by
    intro h
    rw [h, detect_empty_is_nil] at hdet
    exact hdet rfl
  rw [recommend_genre_branch as books corpus E q k hq hfind hdet hmk]
  haveI : IsTotal (Nat × Book) (fun a b => pyStrLe a.2.title b.2.title) :=
    ⟨fun a b => by
      rcases le_total a.2.title b.2.title with h | h
      · exact Or.inl ((pyStrLe_iff_le _ _).mpr h)
      · exact Or.inr ((pyStrLe_iff_le _ _).mpr h)⟩
  haveI : IsTrans (Nat × Book) (fun a b => pyStrLe a.2.title b.2.title) :=
    ⟨fun a b c h1 h2 => (pyStrLe_iff_le _ _).mpr
      (le_trans ((pyStrLe_iff_le _ _).mp h1) ((pyStrLe_iff_le _ _).mp h2))⟩
  have hsorted := List.sorted_insertionSort
    (fun a b : Nat × Book => pyStrLe a.2.title b.2.title)
    (genreMatchesOf books (detect_genres_from_query (pyStrip q)))
  have hperm := List.perm_insertionSort
    (fun a b : Nat × Book => pyStrLe a.2.title b.2.title)
    (genreMatchesOf books (detect_genres_from_query (pyStrip q)))
  refine ⟨?_, ?_, ?_⟩
  · rw [List.length_map, length_pyTake_of_pos hk, sortByTitle, List.length_insertionSort]
    have hnat : k.toNat ≤
        (genreMatchesOf books (detect_genres_from_query (pyStrip q))).length :=
      Int.toNat_le.mpr hmk
    rw [min_eq_left hnat]
    exact Int.toNat_of_nonneg hk.le
  · intro b hb
    obtain ⟨p, hp, hpb⟩ := List.mem_map.mp hb
    have hp2 : p ∈ sortByTitle (genreMatchesOf books (detect_genres_from_query (pyStrip q))) :=
      (pyTake_sublist _ _).subset hp
    have hp3 : p ∈ genreMatchesOf books (detect_genres_from_query (pyStrip q)) :=
      hperm.mem_iff.mp hp2
    simp only [genreMatchesOf] at hp3
    have hmat : bookMatchesGenres (detect_genres_from_query (pyStrip q)) p.2 = true :=
      @List.of_mem_filter _ (fun ib => bookMatchesGenres
        (detect_genres_from_query (pyStrip q)) ib.2) p _ hp3
    exact hpb ▸ (bookMatchesGenres_iff _ _).mp hmat
  · have hpw : (pyTake k (sortByTitle
        (genreMatchesOf books (detect_genres_from_query (pyStrip q))))).Pairwise
        (fun a b : Nat × Book => pyStrLe a.2.title b.2.title) :=
      List.Pairwise.sublist (pyTake_sublist _ _) hsorted
    rw [List.pairwise_map]
    exact hpw.imp (fun h => (pyStrLe_iff_le _ _).mp h)

/-- Witness for C2: the query `"romance"` on a catalog with two
romance-tagged books and `k = 2` returns exactly those two in
title order. -/
theorem C2_witness :
    find_title_mentioned cbooksB (pyStrip "romance") = none ∧
    detect_genres_from_query (pyStrip "romance") ≠ [] ∧ (0 : Int) < 2 ∧
    (2 : Int) ≤
      ((genreMatchesOf cbooksB (detect_genres_from_query (pyStrip "romance"))).length : Int) ∧
    ((recommend_by_text argsortDesc cbooksB ccorpusB cEB "romance" 2).length : Int) = 2 ∧
    (∀ b ∈ recommend_by_text argsortDesc cbooksB ccorpusB cEB "romance" 2,
      ∃ g ∈ b.genres, strLower g ∈ detect_genres_from_query (pyStrip "romance")) ∧
    (recommend_by_text argsortDesc cbooksB ccorpusB cEB "romance" 2).Pairwise
      (fun b c => b.title ≤ c.title) := by
  obtain ⟨h1, h2, h3⟩ := C2_genre_branch_alphabetical argsortDesc cbooksB ccorpusB cEB
    "romance" 2 (by decide) (by decide) (by decide) (by decide)
  exact ⟨by decide, by decide, by decide, by decide, h1, h2, h3⟩

/-- The title-branch score vector has one entry per corpus row. -/
theorem titleSims_length {α : Type} [LinearOrderedCommRing α]
    (corpus : List (List α)) (t : Nat) :
    (titleSims corpus t).length = corpus.length := by
  simp [titleSims, querySims]

/-- Every value stored in the title lookup is a valid catalog
position. -/
theorem titleLookup_values_lt (books : List Book) :
    ∀ p ∈ titleLookup books, p.2 < books.length := by
  have key : ∀ (l : List (Nat × Book)) (d : List (String × Nat)),
      (∀ p ∈ d, p.2 < books.length) → (∀ ib ∈ l, ib.1 < books.length) →
      ∀ p ∈ l.foldl (fun d ib => dictInsert d (strLower ib.2.title) ib.1) d,
        p.2 < books.length := by
    intro l
    induction l with
    | nil => intro d hd _ p hp; exact hd p hp
    | cons ib rest ih =>
      intro d hd hl p hp
      refine ih _ ?_ (fun x hx => hl x (List.mem_cons_of_mem _ hx)) p hp
      intro r hr
      simp only [dictInsert] at hr
      split at hr
      · obtain ⟨s, hs, hsr⟩ := List.mem_map.mp hr
        by_cases hkey : s.1 = strLower ib.2.title
        · rw [if_pos hkey] at hsr
          rw [← hsr]
          exact hl ib (List.mem_cons_self ib rest)
        · rw [if_neg hkey] at hsr
          exact hsr ▸ hd s hs
      · rcases List.mem_append.mp hr with h | h
        · exact hd r h
        · rw [List.mem_singleton.mp h]
          exact hl ib (List.mem_cons_self ib rest)
  intro p hp
  refine key (List.enumFrom 0 books) [] (by simp) ?_ p hp
  intro ib hib
  have := List.mem_enumFrom hib
  omega

/-- A mentioned-title position returned by the matcher is a valid
catalog position. -/
theorem find_title_lt (books : List Book) (q : String) (t : Nat)
    (hfind : find_title_mentioned books q = some t) : t < books.length := by
  unfold find_title_mentioned at hfind
  obtain ⟨p, hp, hpt⟩ := Option.map_eq_some'.mp hfind
  exact hpt ▸ titleLookup_values_lt books p (List.mem_of_find?_eq_some hp)

/-- C4 amended: in the title branch and the pure embedding branch the
returned items are ordered by non-increasing similarity score, for
every index-sort routine meeting the `np.argsort` contract; the
original claim's stable tie-breaking is not guaranteed (see
`C4_counterexample`), so among equal scores the order is whatever the
sort routine produced.  The pure-branch conjunct covers both of its
entry points: an empty detected genre set, and the fall-through with a
non-empty detected set but zero genre matches and positive `k`. -/
theorem C4_amended {α : Type} [LinearOrderedCommRing α]
    (as : List α → List Nat) (books : List Book) (corpus : List (List α))
    (E : String → List α) (q : String) (k : Int) :
    (∀ t, pyStrip q ≠ "" →
      find_title_mentioned books (pyStrip q) = some t →
      IsArgsortDesc (titleSims corpus t) (as (titleSims corpus t)) →
      recommend_by_text as books corpus E q k =
        (topIdxTitle as corpus t k).map (fun i => books.getD i default) ∧
      RankedDesc (titleSims corpus t) (topIdxTitle as corpus t k)) ∧
    (pyStrip q ≠ "" →
      find_title_mentioned books (pyStrip q) = none →
      genreMatchesOf books (detect_genres_from_query (pyStrip q)) = [] →
      (detect_genres_from_query (pyStrip q) = [] ∨ 0 < k) →
      IsArgsortDesc (querySims corpus (E (pyStrip q)))
        (as (querySims corpus (E (pyStrip q)))) →
      recommend_by_text as books corpus E q k =
        (topIdxQuery as corpus (E (pyStrip q)) k).map (fun i => books.getD i default) ∧
      RankedDesc (querySims corpus (E (pyStrip q)))
        (topIdxQuery as corpus (E (pyStrip q)) k)) := by
  constructor
  · intro t hq hfind hvalid
    refine ⟨recommend_title_branch as books corpus E q k t hq hfind, ?_⟩
    show (pyTake k (as (titleSims corpus t))).Pairwise _
    exact List.Pairwise.sublist (pyTake_sublist _ _) hvalid.2
  · intro hq hfind hgm hor hvalid
    refine ⟨recommend_pure_branch as books corpus E q k hq hfind hgm hor, ?_⟩
    show (pyTake k (as (querySims corpus (E (pyStrip q))))).Pairwise _
    exact List.Pairwise.sublist (pyTake_sublist _ _) hvalid.2

/-- Witness for C4: the title branch on the concrete catalog with
`k = 1` returns the ranked index list ordered by descending score, and
the pure embedding branch does too when entered by fall-through — the
query `"thriller"` detects a genre that matches no catalog item. -/
theorem C4_witness :
    (recommend_by_text argsortDesc cbooksA ccorpusA cEA "aaa" 1 =
      (topIdxTitle argsortDesc ccorpusA 0 1).map (fun i => cbooksA.getD i default) ∧
     RankedDesc (titleSims ccorpusA 0) (topIdxTitle argsortDesc ccorpusA 0 1)) ∧
    (recommend_by_text argsortDesc cbooksB ccorpusB cEB "thriller" 2 =
      (topIdxQuery argsortDesc ccorpusB (cEB (pyStrip "thriller")) 2).map
        (fun i => cbooksB.getD i default) ∧
     RankedDesc (querySims ccorpusB (cEB (pyStrip "thriller")))
       (topIdxQuery argsortDesc ccorpusB (cEB (pyStrip "thriller")) 2)) :=
  ⟨(C4_amended argsortDesc cbooksA ccorpusA cEA "aaa" 1).1 0 (by decide) (by decide)
     (argsortDesc_valid _),
   (C4_amended argsortDesc cbooksB ccorpusB cEB "thriller" 2).2 (by decide) (by decide)
     (by decide) (Or.inr (by decide)) (argsortDesc_valid _)⟩

/-- C1 amended: the mentioned item at index `t` is absent from the
result whenever `k` is positive but smaller than the catalog size and
every other row's (sentinel-adjusted) score exceeds the sentinel `-1`;
the code only forces the self-similarity to the bottom of the ranking,
so for `k ≥ catalog size`, or when another row also scores `-1`, the
item can still be returned (see `C1_counterexample`). -/
theorem C1_amended {α : Type} [LinearOrderedCommRing α]
    (as : List α → List Nat) (books : List Book) (corpus : List (List α))
    (E : String → List α) (q : String) (k : Int) (t : Nat)
    (hnodup : books.Nodup)
    (hlen : corpus.length = books.length)
    (hfind : find_title_mentioned books (pyStrip q) = some t)
    (hvalid : IsArgsortDesc (titleSims corpus t) (as (titleSims corpus t)))
    (hk : 0 < k) (hkn : k < (books.length : Int))
    (hsent : ∀ j ∈ List.range corpus.length, j ≠ t →
      -1 < (titleSims corpus t).getD j 0) :
    books.getD t default ∉ recommend_by_text as books corpus E q k := by
  by_cases hq : pyStrip q = ""
  · rw [recommend_of_strip_empty as books corpus E q k hq]
    exact List.not_mem_nil _
  rw [recommend_title_branch as books corpus E q k t hq hfind]
  have ht : t < books.length := find_title_lt books (pyStrip q) t hfind
  have hslen : (titleSims corpus t).length = corpus.length := titleSims_length corpus t
  have htc : t < corpus.length := hlen ▸ ht
  have hsentt : (titleSims corpus t).getD t 0 = -1 := by
    rw [List.getD_eq_getElem _ _ (by rw [hslen]; exact htc)]
    have : t < ((querySims corpus (corpus.getD t [])).set t (-1)).length := by
      rw [List.length_set]; simp [querySims]; exact htc
    exact List.getElem_set_self this
  intro hmem
  obtain ⟨i, hi, hib⟩ := List.mem_map.mp hmem
  -- the picked index is t itself, by injectivity on a Nodup catalog
  have hisub : i ∈ as (titleSims corpus t) := (pyTake_sublist _ _).subset hi
  have hirange : i ∈ List.range (titleSims corpus t).length := hvalid.1.mem_iff.mp hisub
  have hilt : i < books.length := by
    have := List.mem_range.mp hirange
    rw [hslen, hlen] at this
    exact this
  have hit : i = t := by
    have hgi : books.getD i default = books[i] := List.getD_eq_getElem books default hilt
    have hgt : books.getD t default = books[t] := List.getD_eq_getElem books default ht
    rw [hgi, hgt] at hib
    exact (hnodup.getElem_inj_iff).mp hib
  rw [hit] at hi
  have htmem : t ∈ as (titleSims corpus t) := (pyTake_sublist _ _).subset hi
  -- split the contract permutation around the occurrence of t
  obtain ⟨l1, l2, hl⟩ := List.append_of_mem htmem
  have hnd : (l1 ++ t :: l2).Nodup := by
    rw [← hl]
    exact hvalid.1.nodup_iff.mpr (List.nodup_range _)
  have hpw : List.Pairwise
      (fun a b => (titleSims corpus t).getD b 0 ≤ (titleSims corpus t).getD a 0)
      (l1 ++ t :: l2) := hl ▸ hvalid.2
  have hl2nil : l2 = [] := by
    rcases l2 with _ | ⟨j, l2m⟩
    · rfl
    · exfalso
      have hjmem : j ∈ l1 ++ t :: j :: l2m := by simp
      have hjlt : j ∈ List.range (titleSims corpus t).length := by
        rw [← hl] at hjmem
        exact hvalid.1.mem_iff.mp hjmem
      have hji : j ≠ t := by
        intro h
        subst h
        have := (List.nodup_append.mp hnd).2.1
        simp at this
      have hgt2 := hsent j (by
        rw [titleSims_length] at hjlt
        simpa [List.mem_range] using hjlt) hji
      have hle : (titleSims corpus t).getD j 0 ≤ (titleSims corpus t).getD t 0 := by
        have hpw2 := (List.pairwise_append.mp hpw).2.1
        exact (List.pairwise_cons.mp hpw2).1 j (by simp)
      rw [hsentt] at hle
      exact absurd hle (not_le.mpr hgt2)
  subst hl2nil
  -- t sits at the very last position; the slice stops before it
  have hlen1 : l1.length = (titleSims corpus t).length - 1 := by
    have hleq := hvalid.1.length_eq
    rw [hl] at hleq
    simp [List.length_range] at hleq
    omega
  have htake : pyTake k (as (titleSims corpus t)) = l1.take k.toNat := by
    unfold pyTake
    rw [if_pos hk.le, hl]
    refine List.take_append_of_le_length ?_
    rw [hlen1, hslen, hlen]
    omega
  rw [htake] at hi
  have htl1 : t ∈ l1 := (List.take_sublist _ _).subset hi
  have hnotin : t ∉ l1 := by
    have hsplit := List.nodup_append.mp hnd
    intro hmem1
    exact hsplit.2.2 hmem1 (List.mem_cons_self t [])
  exact hnotin htl1

/-- Witness for C1 amended: on the concrete catalog the mentioned book
at index 0 is absent from the `k = 1` result. -/
theorem C1_witness :
    cbooksA.Nodup ∧ ccorpusA.length = cbooksA.length ∧
    find_title_mentioned cbooksA (pyStrip "aaa") = some 0 ∧
    (0 : Int) < 1 ∧ (1 : Int) < (cbooksA.length : Int) ∧
    cbooksA.getD 0 default ∉
      recommend_by_text argsortDesc cbooksA ccorpusA cEA "aaa" 1 :=
  ⟨by decide, by decide, by decide, by decide, by decide,
   C1_amended argsortDesc cbooksA ccorpusA cEA "aaa" 1 0 (by decide) (by decide)
     (by decide) (argsortDesc_valid _) (by decide) (by decide) (by decide)⟩

/-- A member of an enumerated list has its payload in the original
list. -/
theorem snd_mem_of_mem_enumFrom {x : Nat × Book} {n : Nat} {l : List Book}
    (h : x ∈ List.enumFrom n l) : x.2 ∈ l := by
  obtain ⟨i, b⟩ := x
  have hb := List.mem_enumFrom h
  simp only at hb
  rw [hb.2.2]
  exact List.getElem_mem _

/-- Building the Python dict over pairwise-fresh keys appends one
entry per item, in iteration order, with no overwriting. -/
theorem foldl_dictInsert_fresh :
    ∀ (l : List (Nat × Book)) (d : List (String × Nat)),
      (∀ ib ∈ l, strLower ib.2.title ∉ d.map Prod.fst) →
      List.Pairwise (fun a b => strLower a.2.title ≠ strLower b.2.title) l →
      l.foldl (fun d ib => dictInsert d (strLower ib.2.title) ib.1) d =
        d ++ l.map (fun ib => (strLower ib.2.title, ib.1)) := by
  intro l
  induction l with
  | nil => intro d _ _; simp
  | cons ib rest ih =>
    intro d hfresh hpair
    have hkey : ((d.map Prod.fst).contains (strLower ib.2.title)) = false := by
      rw [Bool.eq_false_iff]
      intro hc
      exact hfresh ib (List.mem_cons_self ib rest) (List.elem_iff.mp hc)
    have hstep : dictInsert d (strLower ib.2.title) ib.1 =
        d ++ [(strLower ib.2.title, ib.1)] := by
      rw [dictInsert, hkey]
      simp
    rw [List.foldl_cons, hstep, ih]
    · simp
    · intro x hx
      rw [List.map_append]
      intro hmem
      rcases List.mem_append.mp hmem with h | h
      · exact hfresh x (List.mem_cons_of_mem _ hx) h
      · simp only [List.map_cons, List.map_nil, List.mem_singleton] at h
        exact ((List.pairwise_cons.mp hpair).1 x hx) h.symm
    · exact (List.pairwise_cons.mp hpair).2

/-- Scanning the per-item lookup entries in order is the spec's
first-match-by-position scan. -/
theorem find_map_enumFrom (q : List Char) :
    ∀ (bs : List Book) (n : Nat),
      (((List.enumFrom n bs).map (fun ib => (strLower ib.2.title, ib.1))).find?
          (fun p => containsSub p.1.data q)).map Prod.snd
        = findTitleSpecAux q n bs := by
  intro bs
  induction bs with
  | nil => intro n; rfl
  | cons b rest ih =>
    intro n
    show ((((n, b) :: List.enumFrom (n + 1) rest).map
        (fun ib => (strLower ib.2.title, ib.1))).find?
          (fun p => containsSub p.1.data q)).map Prod.snd = _
    rw [List.map_cons]
    by_cases hc : containsSub (strLower b.title).data q = true
    · rw [List.find?_cons_of_pos _ (by simpa using hc)]
      show some n = findTitleSpecAux q n (b :: rest)
      rw [findTitleSpecAux, if_pos hc]
    · rw [List.find?_cons_of_neg _ (by simpa using hc)]
      rw [ih (n + 1)]
      show _ = findTitleSpecAux q n (b :: rest)
      rw [findTitleSpecAux, if_neg hc]

/-- C7 amended: the matcher scans lookup keys in first-appearance
catalog order, but a duplicated lowercased title stores the last
duplicate's position (see `C7_counterexample`); when the lowercased
catalog titles are pairwise distinct — as in the shipped catalogs —
the matcher returns exactly the spec's answer: the position of the
first title occurring inside the lowercased query, `none` when no
title occurs. -/
theorem C7_amended (books : List Book) (q : String)
    (hnodup : (books.map (fun b => strLower b.title)).Nodup) :
    find_title_mentioned books q = findTitleSpec books q := by
  have hpair : List.Pairwise (fun a b : Nat × Book =>
      strLower a.2.title ≠ strLower b.2.title) (List.enumFrom 0 books) := by
    have hp : List.Pairwise (fun a b : Book => strLower a.title ≠ strLower b.title)
        books := List.pairwise_map.mp hnodup
    clear hnodup
    generalize 0 = n
    induction books generalizing n with
    | nil => exact List.Pairwise.nil
    | cons b rest ih =>
      obtain ⟨hb, hrest⟩ := List.pairwise_cons.mp hp
      refine List.pairwise_cons.mpr ⟨?_, ih hrest (n + 1)⟩
      intro x hx
      exact hb x.2 (snd_mem_of_mem_enumFrom hx)
  show ((titleLookup books).find?
      (fun p => containsSub p.1.data (strLower q).data)).map Prod.snd = _
  rw [titleLookup, foldl_dictInsert_fresh (List.enumFrom 0 books) [] (by simp) hpair,
    List.nil_append]
  exact find_map_enumFrom (strLower q).data books 0

/-- Witness for C7 amended: on a catalog with distinct lowercased
titles the matcher and the spec's scan agree. -/
theorem C7_witness :
    (cbooksA.map (fun b => strLower b.title)).Nodup ∧
    find_title_mentioned cbooksA "bbb" = findTitleSpec cbooksA "bbb" ∧
    find_title_mentioned cbooksA "bbb" = some 1 :=
  ⟨by decide, C7_amended cbooksA "bbb" (by decide), by decide⟩

/-- Count of the available rows: removing an already-used duplicate-free
selection from a duplicate-free pool leaves pool-size minus selection-size
candidates. -/
theorem length_filter_not_mem :
    ∀ {used l : List Nat}, used.Sublist l → l.Nodup →
      (l.filter (fun i => !used.contains i)).length = l.length - used.length := by
  intro used l hsub
  induction hsub with
  | slnil => intro _; rfl
  | @cons l1 l2 a h ih =>
    intro hnd
    obtain ⟨ha, hnd2⟩ := List.pairwise_cons.mp hnd
    have hnotu : a ∉ l1 := fun hm => (ha a (h.subset hm)) rfl
    rw [List.filter_cons, if_pos (by simpa using hnotu), List.length_cons, ih hnd2]
    have := h.length_le
    simp only [List.length_cons]
    omega
  | @cons₂ l1 l2 a h ih =>
    intro hnd
    obtain ⟨ha, hnd2⟩ := List.pairwise_cons.mp hnd
    rw [List.filter_cons]
    have hcontains : ((a :: l1).contains a) = true := by simp
    rw [if_neg (by simp [hcontains])]
    have hcongr : List.filter (fun i => !(a :: l1).contains i) l2 =
        List.filter (fun i => !l1.contains i) l2 := by
      refine List.filter_congr ?_
      intro x hx
      have hxa : x ≠ a := fun he => (ha x hx) he.symm
      simp [List.elem_iff, hxa]
    rw [hcongr, ih hnd2]
    have := h.length_le
    simp only [List.length_cons]
    omega

/-- Every valid position occurs, with its item, in the enumeration. -/
theorem mem_enumFrom_getD (books : List Book) (i : Nat) (h : i < books.length) :
    (i, books.getD i default) ∈ List.enumFrom 0 books := by
  have hlen : i < (List.enumFrom 0 books).length := by
    rw [List.enumFrom_length]; exact h
  have := List.getElem_enumFrom books 0 i hlen
  rw [Nat.zero_add] at this
  rw [List.getD_eq_getElem books default h, ← this]
  exact List.getElem_mem hlen

/-- C3: on the hybrid fill path (no title, non-empty detected set,
between 1 and k-1 genre matches) the engine returns exactly
`min k (catalog size)` items: first every genre match in catalog
order, then similarity-filled items drawn only from rows that match no
detected genre, with no catalog item repeated (on a duplicate-free
catalog). -/
theorem C3_hybrid_fill {α : Type} [LinearOrderedCommRing α]
    (as : List α → List Nat) (books : List Book) (corpus : List (List α))
    (E : String → List α) (q : String) (k : Int)
    (hnodup : books.Nodup)
    (hfind : find_title_mentioned books (pyStrip q) = none)
    (hdet : detect_genres_from_query (pyStrip q) ≠ [])
    (hm1 : genreMatchesOf books (detect_genres_from_query (pyStrip q)) ≠ [])
    (hmk : ((genreMatchesOf books (detect_genres_from_query (pyStrip q))).length : Int) < k) :
    ((recommend_by_text as books corpus E q k).length : Int) =
      min k (books.length : Int) ∧
    recommend_by_text as books corpus E q k =
      (genreMatchesOf books (detect_genres_from_query (pyStrip q))).map Prod.snd ++
        fillBooks books corpus (E (pyStrip q))
          ((genreMatchesOf books (detect_genres_from_query (pyStrip q))).map Prod.fst)
          (k - ((genreMatchesOf books (detect_genres_from_query (pyStrip q))).length : Int)) ∧
    (∀ b ∈ (genreMatchesOf books (detect_genres_from_query (pyStrip q))).map Prod.snd,
      ∃ g ∈ b.genres, strLower g ∈ detect_genres_from_query (pyStrip q)) ∧
    (∀ b ∈ fillBooks books corpus (E (pyStrip q))
        ((genreMatchesOf books (detect_genres_from_query (pyStrip q))).map Prod.fst)
        (k - ((genreMatchesOf books (detect_genres_from_query (pyStrip q))).length : Int)),
      ¬ ∃ g ∈ b.genres, strLower g ∈ detect_genres_from_query (pyStrip q)) ∧
    (recommend_by_text as books corpus E q k).Nodup := by
  have hq : pyStrip q ≠ "" := by
    intro h
    rw [h, detect_empty_is_nil] at hdet
    exact hdet rfl
  set det := detect_genres_from_query (pyStrip q) with hdet_def
  set gm := genreMatchesOf books det with hgm_def
  set v := E (pyStrip q) with hv_def
  set used := gm.map Prod.fst with hused_def
  set rem := k - (gm.length : Int) with hrem_def
  set n := books.length with hn_def
  have hrec := recommend_hybrid_branch as books corpus E q k hq hfind hdet hm1 hmk
  have hm_le_n : gm.length ≤ n := by
    have h1 := List.length_filter_le
      (fun ib => bookMatchesGenres det ib.2) (List.enumFrom 0 books)
    rw [List.enumFrom_length] at h1
    exact h1
  have hused_sub : used.Sublist (List.range n) := by
    have h1 : gm.Sublist (List.enumFrom 0 books) := List.filter_sublist _
    have h2 := h1.map Prod.fst
    rw [List.enumFrom_map_fst, ← List.range_eq_range'] at h2
    exact h2
  have hused_nd : used.Nodup := hused_sub.nodup (List.nodup_range n)
  have hused_len : used.length = gm.length := List.length_map ..
  have havail_len :
      ((List.range n).filter (fun i => !used.contains i)).length = n - gm.length := by
    have h1 := length_filter_not_mem hused_sub (List.nodup_range n)
    rw [List.length_range, hused_len] at h1
    exact h1
  have hpairs_len : (availablePairs books corpus v used).length = n - gm.length := by
    rw [availablePairs, List.length_map]
    exact havail_len
  have hsort_len : (sortBySimDesc (availablePairs books corpus v used)).length =
      n - gm.length := by
    rw [sortBySimDesc, List.length_insertionSort]
    exact hpairs_len
  have hk0 : (0 : Int) ≤ k := by omega
  have hrem_pos : (0 : Int) < rem := by omega
  have hfill_len : (fillBooks books corpus v used rem).length =
      min rem.toNat (n - gm.length) := by
    rw [fillBooks, List.length_map, length_pyTake_of_pos hrem_pos, hsort_len]
  have htot_len : ((gm.map Prod.snd) ++ fillBooks books corpus v used rem).length =
      gm.length + min rem.toNat (n - gm.length) := by
    rw [List.length_append, List.length_map, hfill_len]
  have htot_le : ((gm.map Prod.snd) ++ fillBooks books corpus v used rem).length ≤
      k.toNat := by
    rw [htot_len]
    omega
  have hfinal : recommend_by_text as books corpus E q k =
      (gm.map Prod.snd) ++ fillBooks books corpus v used rem := by
    rw [hrec]
    unfold pyTake
    rw [if_pos hk0]
    exact List.take_of_length_le htot_le
  -- the fill indices: available rows after removing already-used ones
  have hfidx_sub : ((pyTake rem (sortBySimDesc (availablePairs books corpus v used))).map
      Prod.fst).Sublist ((sortBySimDesc (availablePairs books corpus v used)).map
        Prod.fst) := (pyTake_sublist _ _).map Prod.fst
  have hsort_perm : (sortBySimDesc (availablePairs books corpus v used)).Perm
      (availablePairs books corpus v used) := List.perm_insertionSort _ _
  have hfst_avail : (availablePairs books corpus v used).map Prod.fst =
      (List.range n).filter (fun i => !used.contains i) := by
    rw [availablePairs, List.map_map]
    exact List.map_congr_left (fun a _ => rfl) |>.trans (List.map_id _)
  have havail_nd : ((List.range n).filter (fun i => !used.contains i)).Nodup :=
    (List.nodup_range n).filter _
  have hfstsort_perm : ((sortBySimDesc (availablePairs books corpus v used)).map
      Prod.fst).Perm ((List.range n).filter (fun i => !used.contains i)) := by
    rw [← hfst_avail]
    exact hsort_perm.map Prod.fst
  have hfidx_nd : ((pyTake rem (sortBySimDesc (availablePairs books corpus v used))).map
      Prod.fst).Nodup :=
    hfidx_sub.nodup (hfstsort_perm.nodup_iff.mpr havail_nd)
  have hfidx_avail : ∀ i ∈ (pyTake rem (sortBySimDesc
      (availablePairs books corpus v used))).map Prod.fst,
      i ∈ (List.range n).filter (fun i => !used.contains i) := by
    intro i hi
    exact hfstsort_perm.mem_iff.mp (hfidx_sub.subset hi)
  have hfidx_not_used : ∀ i ∈ (pyTake rem (sortBySimDesc
      (availablePairs books corpus v used))).map Prod.fst, i ∉ used := by
    intro i hi hmem
    have h1 := (List.mem_filter.mp (hfidx_avail i hi)).2
    have hc : used.contains i = true := List.elem_iff.mpr hmem
    rw [hc] at h1
    simp at h1
  have hgm_snd : ∀ p ∈ gm, p.1 < n ∧ p.2 = books.getD p.1 default := by
    intro p hp
    have hpe : p ∈ List.enumFrom 0 books := (List.filter_sublist _).subset hp
    obtain ⟨i, b⟩ := p
    have hme := List.mem_enumFrom hpe
    simp only [Nat.zero_add, Nat.sub_zero] at hme
    refine ⟨hme.2.1, ?_⟩
    rw [hme.2.2]
    exact (List.getD_eq_getElem books default hme.2.1).symm
  refine ⟨?_, hfinal, ?_, ?_, ?_⟩
  · rw [hfinal, htot_len]
    omega
  · -- every genre-matched item carries a detected tag
    intro b hb
    obtain ⟨p, hp, hpb⟩ := List.mem_map.mp hb
    rw [hgm_def, genreMatchesOf] at hp
    have hmat : bookMatchesGenres det p.2 = true :=
      @List.of_mem_filter _ (fun ib => bookMatchesGenres det ib.2) p _ hp
    exact hpb ▸ (bookMatchesGenres_iff _ _).mp hmat
  · -- no similarity-filled item carries a detected tag
    intro b hb hmatch
    rw [fillBooks] at hb
    obtain ⟨p, hp, hpb⟩ := List.mem_map.mp hb
    have hpi : p.1 ∈ (pyTake rem (sortBySimDesc
        (availablePairs books corpus v used))).map Prod.fst :=
      List.mem_map.mpr ⟨p, hp, rfl⟩
    have hin : p.1 < n := by
      have := (List.mem_filter.mp (hfidx_avail p.1 hpi)).1
      exact List.mem_range.mp this
    have hnot_used := hfidx_not_used p.1 hpi
    have hbmat : bookMatchesGenres det (books.getD p.1 default) = true :=
      (bookMatchesGenres_iff _ _).mpr (hpb ▸ hmatch)
    have hpgm : (p.1, books.getD p.1 default) ∈ gm := by
      rw [hgm_def, genreMatchesOf]
      exact List.mem_filter.mpr ⟨mem_enumFrom_getD books p.1 hin, hbmat⟩
    exact hnot_used (List.mem_map.mpr ⟨(p.1, books.getD p.1 default), hpgm, rfl⟩)
  · -- no duplicates
    have h_gmB : gm.map Prod.snd = used.map (fun i => books.getD i default) := by
      rw [hused_def, List.map_map]
      exact List.map_congr_left (fun p hp => (hgm_snd p hp).2)
    have h_fill : fillBooks books corpus v used rem =
        ((pyTake rem (sortBySimDesc (availablePairs books corpus v used))).map
          Prod.fst).map (fun i => books.getD i default) := by
      rw [fillBooks, List.map_map]
      exact List.map_congr_left (fun p _ => rfl)
    have hdisj : used.Disjoint ((pyTake rem (sortBySimDesc
        (availablePairs books corpus v used))).map Prod.fst) := by
      intro a ha hmem
      exact hfidx_not_used a hmem ha
    have hidx_nd : (used ++ (pyTake rem (sortBySimDesc
        (availablePairs books corpus v used))).map Prod.fst).Nodup :=
      hused_nd.append hfidx_nd hdisj
    have hidx_lt : ∀ i ∈ used ++ (pyTake rem (sortBySimDesc
        (availablePairs books corpus v used))).map Prod.fst, i < n := by
      intro i hi
      rcases List.mem_append.mp hi with h | h
      · exact List.mem_range.mp (hused_sub.subset h)
      · exact List.mem_range.mp (List.mem_filter.mp (hfidx_avail i h)).1
    rw [hfinal, h_gmB, h_fill, ← List.map_append]
    refine List.Nodup.map_on ?_ hidx_nd
    intro x hx y hy hxy
    have hxlt := hidx_lt x hx
    have hylt := hidx_lt y hy
    rw [List.getD_eq_getElem books default hxlt,
      List.getD_eq_getElem books default hylt] at hxy
    exact (hnodup.getElem_inj_iff).mp hxy

/-- Witness for C3: the query `"romance"` with two genre matches and
`k = 5` on a 3-book catalog returns all three books, matches first. -/
theorem C3_witness :
    cbooksB.Nodup ∧
    find_title_mentioned cbooksB (pyStrip "romance") = none ∧
    detect_genres_from_query (pyStrip "romance") ≠ [] ∧
    genreMatchesOf cbooksB (detect_genres_from_query (pyStrip "romance")) ≠ [] ∧
    ((genreMatchesOf cbooksB (detect_genres_from_query (pyStrip "romance"))).length : Int)
      < 5 ∧
    ((recommend_by_text argsortDesc cbooksB ccorpusB cEB "romance" 5).length : Int) =
      min 5 (cbooksB.length : Int) ∧
    recommend_by_text argsortDesc cbooksB ccorpusB cEB "romance" 5 =
      (genreMatchesOf cbooksB (detect_genres_from_query (pyStrip "romance"))).map
          Prod.snd ++
        fillBooks cbooksB ccorpusB (cEB (pyStrip "romance"))
          ((genreMatchesOf cbooksB (detect_genres_from_query (pyStrip "romance"))).map
            Prod.fst)
          (5 - ((genreMatchesOf cbooksB
            (detect_genres_from_query (pyStrip "romance"))).length : Int)) ∧
    (recommend_by_text argsortDesc cbooksB ccorpusB cEB "romance" 5).Nodup := by
  obtain ⟨h1, h2, _, _, h5⟩ := C3_hybrid_fill argsortDesc cbooksB ccorpusB cEB
    "romance" 5 (by decide) (by decide) (by decide) (by decide) (by decide)
  exact ⟨by decide, by decide, by decide, by decide, by decide, h1, h2, h5⟩

/-- A sum of squares is non-negative. -/
theorem sum_sq_nonneg (v : List ℝ) : 0 ≤ (v.map (fun x => x ^ 2)).sum := by
  refine List.sum_nonneg ?_
  intro x hx
  obtain ⟨y, _, rfl⟩ := List.mem_map.mp hx
  positivity

/-- A vanishing sum of squares forces every component to vanish. -/
theorem all_zero_of_sum_sq_eq_zero :
    ∀ (v : List ℝ), (v.map (fun x => x ^ 2)).sum = 0 → ∀ x ∈ v, x = 0 := by
  intro v
  induction v with
  | nil => intro _ x hx; exact absurd hx (List.not_mem_nil x)
  | cons a t ih =>
    intro h x hx
    rw [List.map_cons, List.sum_cons] at h
    have ha : a ^ 2 = 0 := by nlinarith [sum_sq_nonneg t, sq_nonneg a]
    have ht : (t.map (fun x => x ^ 2)).sum = 0 := by nlinarith [sq_nonneg a]
    rcases List.mem_cons.mp hx with rfl | hx2
    · exact pow_eq_zero_iff (two_ne_zero) |>.mp ha
    · exact ih ht x hx2

/-- Dividing every component by a constant divides the sum by it. -/
theorem sum_map_div (l : List ℝ) (c : ℝ) :
    (l.map (fun x => x / c)).sum = l.sum / c := by
  induction l with
  | nil => simp
  | cons a t ih => rw [List.map_cons, List.sum_cons, List.sum_cons, ih, add_div]

/-- Core of the corpus-row invariant: a normalised row has unit
Euclidean norm, except that a zero row is passed through unchanged
(the `norms[norms == 0] = 1.0` guard). -/
theorem l2norm_normalizeRow (v : List ℝ) :
    (l2norm v ≠ 0 ∧ l2norm (normalizeRow v) = 1) ∨
    ((∀ x ∈ v, x = 0) ∧ normalizeRow v = v) := by
  by_cases hz : l2norm v = 0
  · refine Or.inr ⟨?_, ?_⟩
    · refine all_zero_of_sum_sq_eq_zero v ?_
      exact (Real.sqrt_eq_zero (sum_sq_nonneg v)).mp hz
    · rw [normalizeRow, if_pos hz]
      simp
  · refine Or.inl ⟨hz, ?_⟩
    have hpos : 0 < l2norm v := lt_of_le_of_ne (Real.sqrt_nonneg _) (Ne.symm hz)
    have hsq : l2norm v ^ 2 = (v.map (fun x => x ^ 2)).sum :=
      Real.sq_sqrt (sum_sq_nonneg v)
    have hmap : (normalizeRow v).map (fun x => x ^ 2) =
        (v.map (fun x => x ^ 2)).map (fun s => s / l2norm v ^ 2) := by
      rw [normalizeRow, if_neg hz, List.map_map, List.map_map]
      refine List.map_congr_left ?_
      intro a _
      show (a / l2norm v) ^ 2 = a ^ 2 / l2norm v ^ 2
      rw [div_pow]
    have hsum : ((normalizeRow v).map (fun x => x ^ 2)).sum = 1 := by
      rw [hmap, sum_map_div, ← hsq, div_self (by positivity)]
    rw [l2norm, hsum, Real.sqrt_one]

/-- C8: the corpus index has one row per catalog item, each row is the
item's embedded `title + " " + author + " " + description` divided by
its Euclidean norm with 1.0 substituted for a zero norm, and every row
has unit norm except that a zero embedding passes through as the zero
row. -/
theorem C8_corpus_rows_normalized (E : String → List ℝ) (books : List Book) :
    (build_corpus_embeddings E books).length = books.length ∧
    ∀ i, i < books.length →
      (build_corpus_embeddings E books).getD i [] =
        normalizeRow (E (embText (books.getD i default))) ∧
      (l2norm ((build_corpus_embeddings E books).getD i []) = 1 ∨
        ((∀ x ∈ E (embText (books.getD i default)), x = 0) ∧
          (build_corpus_embeddings E books).getD i [] =
            E (embText (books.getD i default)))) := by
  refine ⟨List.length_map .., ?_⟩
  intro i hi
  have hrow : (build_corpus_embeddings E books).getD i [] =
      normalizeRow (E (embText (books.getD i default))) := by
    rw [build_corpus_embeddings,
      List.getD_eq_getElem _ _ (by rw [List.length_map]; exact hi),
      List.getElem_map, List.getD_eq_getElem books default hi]
  refine ⟨hrow, ?_⟩
  rw [hrow]
  rcases l2norm_normalizeRow (E (embText (books.getD i default))) with ⟨_, h1⟩ | ⟨h1, h2⟩
  · exact Or.inl h1
  · exact Or.inr ⟨h1, h2⟩

/-- Witness for C8: with the constant embedder `[3, 4]`, the one-row
corpus index has exactly one row, of unit norm. -/
theorem C8_witness :
    (build_corpus_embeddings cE8 cbooks8).length = cbooks8.length ∧
    0 < cbooks8.length ∧
    (build_corpus_embeddings cE8 cbooks8).getD 0 [] =
      normalizeRow (cE8 (embText (cbooks8.getD 0 default))) ∧
    l2norm ((build_corpus_embeddings cE8 cbooks8).getD 0 []) = 1 := by
  obtain ⟨h1, h2⟩ := C8_corpus_rows_normalized cE8 cbooks8
  obtain ⟨hrow, hdisj⟩ := h2 0 (by decide)
  refine ⟨h1, by decide, hrow, ?_⟩
  rcases hdisj with h | ⟨hzero, _⟩
  · exact h
  · exfalso
    have h3 := hzero 3 (by rw [show cE8 (embText (cbooks8.getD 0 default)) = [3, 4] from rfl]; simp)
    norm_num at h3
